import Mathlib

/-!
Verification development for the CASchoolScraper pipeline.

The Python sources are shallowly embedded as executable Lean definitions:

* `src/logic/scraper/school_data_merger.py` : `merge_data` over association
  lists with Python `dict` update semantics;
* `src/logic/normalizer.py`                 : `clean_text`, `get_value`,
  `try_int`, `parse_english_language_learners`, `parse_administrators`,
  `parse_cds_coordinator`, `extract_address_components`,
  `normalize_school_data`;
* `src/logic/spreadsheet_builder.py`        : loading with `safe_int` and
  `safe_float`, `separate_public_private`, `process_public_schools`,
  `process_private_schools`, row building, `buildSheets`;
* `src/logic/scraper/orchestrator.py`       : the `run` fetch loop and its
  test-mode cap, as the list of listings it processes;
* `src/logic/demographic_calculator.py`     : the black-population-ratio
  computation of `_enrich_single_file`.

Conventions.  Python machine numbers are modelled by `Int` and `Rat`
(exact arithmetic; the scored quantities here are exact decimal fractions).
Python strings are modelled by `String` or `List Char`; the whitespace and
digit classes are the ASCII ones exhibited by the source data.  Python
dictionaries are association lists with unique keys; lookup takes the first
binding.  Fallible Python code (raising) is modelled with `Except` or
`Option`.  Regular-expression operations of the source are compiled, by
hand, to equivalent scanning functions; each such compilation is documented
where it happens.
-/
/-! ## Python dictionary model

A Python `dict` is an insertion-ordered map with unique keys.  We model it
as an association list; `dictGet` takes the first binding (the only one on
unique-key lists), `dictSet` models `d[k] = v` (overwrite the binding in
place if the key exists, keeping its position, else append at the end), and
`dictUpdate` models `d.update(src)` (perform `d[k] = v` for every binding
of `src`, in order). -/
/- The arithmetic of the builder model below is exact rational arithmetic;
the library marks the `Rat` operations irreducible for elaboration, which
would block evaluating the model on concrete records, so they are made
semireducible for this file. -/
attribute [local semireducible] Rat.ofScientific Rat.mul Rat.inv Rat.add
  Rat.sub

def dictGet {V : Type} (d : List (String × V)) (k : String) : Option V :=
  (d.find? (fun p => p.1 = k)).map (fun p => p.2)

def dictKeys {V : Type} (d : List (String × V)) : List String :=
  d.map Prod.fst

def dictSet {V : Type} : List (String × V) → String → V → List (String × V)
  | [], k, v => [(k, v)]
  | p :: rest, k, v =>
    if p.1 = k then (k, v) :: rest else p :: dictSet rest k v

def dictUpdate {V : Type} (d src : List (String × V)) : List (String × V) :=
  src.foldl (fun acc p => dictSet acc p.1 p.2) d

/-- Keys are pairwise distinct, as in a real Python `dict`. -/
def NodupKeys {V : Type} (d : List (String × V)) : Prop :=
  (dictKeys d).Nodup

instance {V : Type} (d : List (String × V)) : Decidable (NodupKeys d) := by
  unfold NodupKeys; infer_instance

/-- First-defined option: `orFirst a b` is `a` when `a` is `some`, else `b`. -/
def orFirst {V : Type} : Option V → Option V → Option V
  | some v, _ => some v
  | none, b => b

/-! ## SchoolDataMerger.merge_data
(`src/logic/scraper/school_data_merger.py`, lines 11-20)

    merged = {}
    merged.update(basic)
    merged.update(details)
    merged.update(additional)
    return merged
-/
def merge_data {V : Type} (basic details additional : List (String × V)) :
    List (String × V) :=
  dictUpdate (dictUpdate (dictUpdate [] basic) details) additional

/-! ## Python character and string semantics

`pyIsSpace` is the ASCII part of Python whitespace (space, tab, newline,
carriage return, vertical tab, form feed), which is what both the regex
class and the default of `str.strip` and `str.split` use on the
ASCII source data.  `stripL` is `str.strip()`, `splitWSF`/`splitWS` is
`str.split()` (maximal whitespace runs as separators, no empty tokens),
`joinSpace` is `" ".join`. -/
def pyIsSpace (c : Char) : Bool :=
  c == ' ' || c == '\t' || c == '\n' || c == '\r' ||
    c == Char.ofNat 11 || c == Char.ofNat 12

def notSpace (c : Char) : Bool := !(pyIsSpace c)

def stripL (s : List Char) : List Char :=
  ((s.dropWhile pyIsSpace).reverse.dropWhile pyIsSpace).reverse

def splitWSF : Nat → List Char → List (List Char)
  | 0, _ => []
  | fuel+1, s =>
    if ((s.dropWhile pyIsSpace).takeWhile notSpace).isEmpty then []
    else
      ((s.dropWhile pyIsSpace).takeWhile notSpace) ::
        splitWSF fuel ((s.dropWhile pyIsSpace).dropWhile notSpace)

def splitWS (s : List Char) : List (List Char) := splitWSF s.length s

def joinSpace : List (List Char) → List Char
  | [] => []
  | [t] => t
  | t :: rest => t ++ ' ' :: joinSpace rest

/-! ## SchoolDataNormalizer.clean_text
(`src/logic/normalizer.py`, lines 165-177)

Three `re.sub(pattern, "", text, flags=IGNORECASE)` passes remove, in
order, the literal phrases `Link opens new browser tab`,
`Google Map(?: Link)?` and `Link opens new Email`, then `.strip()`.
Each pattern is a case-insensitive literal except for the optional
` Link` suffix of the second, whose greedy `?` tries the long form first;
`re.sub` replaces non-overlapping occurrences scanning left to right and
resumes after each match.  `subPassF` implements exactly that scan for a
list of alternatives tried in order (fuel bounds the scan length; one
character or one whole nonempty match is consumed per step, so the input
length is always enough fuel). -/
def leadMatchCI : List Char → List Char → Option (List Char)
  | [], s => some s
  | _ :: _, [] => none
  | p :: ps, c :: cs => if c.toLower == p then leadMatchCI ps cs else none

def firstAltCI : List (List Char) → List Char → Option (List Char)
  | [], _ => none
  | a :: more, s =>
    match leadMatchCI a s with
    | some rest => some rest
    | none => firstAltCI more s

def subPassF (alts : List (List Char)) : Nat → List Char → List Char
  | 0, s => s
  | fuel+1, s =>
    match s with
    | [] => []
    | c :: cs =>
      match firstAltCI alts (c :: cs) with
      | some rest => subPassF alts fuel rest
      | none => c :: subPassF alts fuel cs

def subPassAll (alts : List (List Char)) (s : List Char) : List Char :=
  subPassF alts s.length s

def clean_text_chars (s : List Char) : List Char :=
  stripL (subPassAll ["link opens new email".toList]
    (subPassAll ["google map link".toList, "google map".toList]
      (subPassAll ["link opens new browser tab".toList] s)))

/-- Model of `clean_text` on an optional string (`None` and `""` are falsy
and give `""`; on the empty string the scan is the identity, so the falsy
branch needs no special case here). -/
def clean_text (v : Option (List Char)) : List Char :=
  match v with
  | none => []
  | some t => clean_text_chars t

/-! ## Phone pattern
The regex `\(\d{3}\)\s*\d{3}-\d{4}` of `parse_administrators` and
`parse_cds_coordinator` is deterministic: `(`, three digits, `)`, a
maximal whitespace run (`\s` and `\d` are disjoint, so greediness never
backtracks), three digits, `-`, four digits.  `phoneAt` matches it at the
head of a list, `findPhoneSplit` scans for the leftmost match
(`re.search`) returning text before, match, and text after. -/
def phoneAt : List Char → Option (List Char × List Char)
  | '(' :: d1 :: d2 :: d3 :: ')' :: rest =>
    if d1.isDigit && d2.isDigit && d3.isDigit then
      match rest.dropWhile pyIsSpace with
      | e1 :: e2 :: e3 :: '-' :: f1 :: f2 :: f3 :: f4 :: tail =>
        if e1.isDigit && e2.isDigit && e3.isDigit && f1.isDigit &&
            f2.isDigit && f3.isDigit && f4.isDigit then
          some ('(' :: d1 :: d2 :: d3 :: ')' ::
            (rest.takeWhile pyIsSpace ++
              [e1, e2, e3, '-', f1, f2, f3, f4]), tail)
        else none
      | _ => none
    else none
  | _ => none

def findPhoneSplit : List Char → Option (List Char × List Char × List Char)
  | [] => none
  | c :: cs =>
    match phoneAt (c :: cs) with
    | some (m, rest) => some ([], m, rest)
    | none =>
      match findPhoneSplit cs with
      | some (pre, m, rest) => some (c :: pre, m, rest)
      | none => none

def findPhone (s : List Char) : Option (List Char) :=
  (findPhoneSplit s).map (fun t => t.2.1)

/-! ## Python str.replace(old, "") for a nonempty old
Scans left to right, removing non-overlapping occurrences and resuming
after each removed match. -/
def leadMatch : List Char → List Char → Option (List Char)
  | [], s => some s
  | _ :: _, [] => none
  | p :: ps, c :: cs => if c == p then leadMatch ps cs else none

def replAllF (pat : List Char) : Nat → List Char → List Char
  | 0, s => s
  | fuel+1, s =>
    match s with
    | [] => []
    | c :: cs =>
      match leadMatch pat (c :: cs) with
      | some rest => replAllF pat fuel rest
      | none => c :: replAllF pat fuel cs

def replAll (pat s : List Char) : List Char :=
  if pat.isEmpty then s else replAllF pat s.length s

/-! ## Email split
(`src/logic/normalizer.py`, lines 200-206)

`re.split(r'(\S+@\S+)', admin_str)` with a captured separator.  The
pattern `\S+@\S+` always matches inside one maximal whitespace-free run:
at a candidate start the first greedy `\S+` backtracks to the last `@`
of the run that still has a successor in the run, and the second greedy
`\S+` then extends the match to the end of the run.  A match starting at
some position of a run exists exactly when the run has an `@` that is
neither its first character (one `\S` must precede) nor its last (one
`\S` must follow), and the leftmost such match starts at the start of the
run and covers the whole run.  Hence `re.split` cuts the text exactly at
its whitespace-delimited tokens containing an interior `@`
(`isEmailToken`), keeping those tokens as the captured separators.
`splitEmailsF` produces the pairs `(parts[i-1], parts[i])` consumed by
the loop of `parse_administrators`: text since the previous email
(including surrounding whitespace), then the email token.  Text after the
last email is never paired, exactly as in the source loop.  One token is
consumed per step, so the input length bounds the fuel. -/
def isEmailToken (t : List Char) : Bool :=
  ((t.drop 1).dropLast).contains '@'

def splitEmailsF : Nat → List Char → List Char →
    List (List Char × List Char)
  | 0, _, _ => []
  | fuel+1, acc, s =>
    if ((s.dropWhile pyIsSpace).takeWhile notSpace).isEmpty then []
    else if isEmailToken ((s.dropWhile pyIsSpace).takeWhile notSpace) then
      (acc ++ s.takeWhile pyIsSpace,
        (s.dropWhile pyIsSpace).takeWhile notSpace) ::
        splitEmailsF fuel [] ((s.dropWhile pyIsSpace).dropWhile notSpace)
    else
      splitEmailsF fuel
        (acc ++ s.takeWhile pyIsSpace ++
          (s.dropWhile pyIsSpace).takeWhile notSpace)
        ((s.dropWhile pyIsSpace).dropWhile notSpace)

def splitEmails (s : List Char) : List (List Char × List Char) :=
  splitEmailsF s.length [] s

/-! ## SchoolDataNormalizer.parse_administrators
(`src/logic/normalizer.py`, lines 191-222) -/
structure Admin where
  name_and_position : String
  phone : String
  email : String
deriving DecidableEq, Repr

/-- Body of the loop over `(parts[i-1], parts[i])` pairs: strip the text
before the email, take the first phone-pattern match (empty if none),
remove every occurrence of that phone text and strip again, drop isolated
`0` tokens, and join the rest with single spaces. -/
def adminOfSegment (p : List Char × List Char) : Admin :=
  let text_before := stripL p.1
  let phone := (findPhone text_before).getD []
  let cleaned :=
    if phone.isEmpty then text_before else stripL (replAll phone text_before)
  let tokens := (splitWS cleaned).filter (fun tok => tok ≠ ['0'])
  { name_and_position := String.mk (stripL (joinSpace tokens)),
    phone := String.mk phone,
    email := String.mk (stripL p.2) }

def parse_administrators (admin_str : Option String) : List Admin :=
  match admin_str with
  | none => []
  | some s =>
    if s.isEmpty then []
    else (splitEmails (clean_text_chars s.toList)).map adminOfSegment

/-! ## Normalized values

The normalizer writes JSON values of several shapes into the output
record: nulls, strings, integers, floats, dictionaries and lists. -/
inductive NVal where
  | vnone
  | vstr (s : String)
  | vint (n : Int)
  | vnum (q : Rat)
  | vdict (fields : List (String × NVal))
  | vlist (items : List NVal)

/-! ## SchoolDataNormalizer.get_value
(`src/logic/normalizer.py`, lines 304-312)

    for key in keys:
        if key in data and data[key]:
            return data[key]
    return default        (default is None)

The raw records this pipeline feeds to the normalizer map labels to
strings (scraper output and JSON round-trips of it), so Python truthiness
of a value is nonemptiness of the string. -/
def get_value (data : List (String × String)) : List String → Option String
  | [] => none
  | k :: ks =>
    match dictGet data k with
    | some v => if v.isEmpty then get_value data ks else some v
    | none => get_value data ks

def digitsToNat (cs : List Char) : Nat :=
  cs.foldl (fun a c => a * 10 + (c.toNat - 48)) 0

def ovStr (v : Option String) : NVal :=
  match v with
  | some s => NVal.vstr s
  | none => NVal.vnone

/-- Model of `try_int` (lines 314-321): convert when the value is truthy
and the whole string is digits (`str.isdigit`, ASCII here), else pass the
original value through unchanged. -/
def try_int (v : Option String) : NVal :=
  match v with
  | none => NVal.vnone
  | some s =>
    if !s.isEmpty && s.toList.all Char.isDigit then
      NVal.vint (digitsToNat s.toList : Int)
    else NVal.vstr s

/-! ## SchoolDataNormalizer.parse_english_language_learners
(lines 179-189)

`re.search(r'(\d+)\s*\(\s*([\d.]+)', str(value))` compiled to a scan:
at each candidate position, a maximal nonempty digit run, a maximal
whitespace run, a literal `(`, a maximal whitespace run, then a maximal
nonempty run over digits and dots.  Adjacent pieces draw from disjoint
character classes, so greedy matching never backtracks, and the leftmost
candidate that matches is the match.  `float(group(2))` raises on a
`[\d.]+` token with more than one dot, which is the one way this
normalizer can raise out of the pipeline; `pyFloatDD` returns `none`
there and `parse_english_language_learners` propagates it as the `none`
of its `Option` result (a crashed run). -/
def isDigitDot (c : Char) : Bool := c.isDigit || c == '.'

def ellAt (s : List Char) : Option (List Char × List Char) :=
  let d := s.takeWhile Char.isDigit
  if d.isEmpty then none
  else
    match (s.dropWhile Char.isDigit).dropWhile pyIsSpace with
    | '(' :: r3 =>
      let g2 := (r3.dropWhile pyIsSpace).takeWhile isDigitDot
      if g2.isEmpty then none else some (d, g2)
    | _ => none

def ellSearch : List Char → Option (List Char × List Char)
  | [] => none
  | c :: cs =>
    match ellAt (c :: cs) with
    | some r => some r
    | none => ellSearch cs

def pyFloatDD (cs : List Char) : Option Rat :=
  if cs.count '.' ≤ 1 && cs.any Char.isDigit then
    some ((digitsToNat (cs.takeWhile (fun c => c ≠ '.')) : Rat) +
      (digitsToNat ((cs.dropWhile (fun c => c ≠ '.')).drop 1) : Rat) /
        ((10 : Rat) ^ ((cs.dropWhile (fun c => c ≠ '.')).drop 1).length))
  else none

def parse_english_language_learners (value : Option String) :
    Option NVal :=
  match value with
  | none => some NVal.vnone
  | some s =>
    if s.isEmpty then some (NVal.vstr s)
    else
      match ellSearch s.toList with
      | some (g1, g2) =>
        match pyFloatDD g2 with
        | some q => some (NVal.vdict
            [("Count", NVal.vint (digitsToNat g1 : Int)),
             ("Percentage", NVal.vnum q)])
        | none => none
      | none => some (NVal.vstr s)

/-! ## SchoolDataNormalizer.parse_cds_coordinator (lines 224-240)

Falsy input yields the EMPTY dictionary; otherwise a two-field
dictionary: name is the stripped text before the first phone match (or
the whole cleaned string when no phone is found), phone is the matched
text (or the empty string). -/
def parse_cds_coordinator (coord_str : Option String) : NVal :=
  match coord_str with
  | none => NVal.vdict []
  | some s =>
    if s.isEmpty then NVal.vdict []
    else
      let cleaned := clean_text_chars s.toList
      match findPhoneSplit cleaned with
      | some (pre, m, _) => NVal.vdict
          [("Name", NVal.vstr (String.mk (stripL pre))),
           ("Phone", NVal.vstr (String.mk m))]
      | none => NVal.vdict
          [("Name", NVal.vstr (String.mk cleaned)),
           ("Phone", NVal.vstr "")]

/-! ## SchoolDataNormalizer.extract_address_components (lines 268-302)

`usaddress.tag` is an external collaborator; it is passed in as an oracle
`tagAddr` returning the tagged label-to-string mapping, with `none`
standing for `usaddress.RepeatedLabelError` (the one exception the code
catches, falling back to the cleaned string as street address).
`" ".join(parts).strip()` keeps interior double spaces from empty parts
and strips only the ends, as `joinSpace` followed by `stripL` does. -/
def joinStrip (parts : List (List Char)) : List Char :=
  stripL (joinSpace parts)

def extract_address_components
    (tagAddr : String → Option (List (String × String)))
    (address_str : String) : String × String × String × String × String :=
  if address_str.isEmpty then ("", "", "", "", "")
  else
    let a := String.mk (clean_text_chars address_str.toList)
    match tagAddr a with
    | none => (a, "", "", "", "")
    | some tagged =>
      (String.mk (joinStrip [((dictGet tagged "AddressNumber").getD "").toList,
          ((dictGet tagged "StreetName").getD "").toList,
          ((dictGet tagged "StreetNamePostType").getD "").toList]),
       String.mk (joinStrip [((dictGet tagged "OccupancyType").getD "").toList,
          ((dictGet tagged "OccupancyIdentifier").getD "").toList]),
       (dictGet tagged "PlaceName").getD "",
       (dictGet tagged "StateName").getD "",
       (dictGet tagged "ZipCode").getD "")

/-! ## SchoolDataNormalizer.normalize_school_data (lines 74-160)

The method fills a fresh dict in a fixed textual order, key by key; the
embedding returns the same association list.  The only way it can raise
is `float()` inside `parse_english_language_learners` (see above), hence
the `Option` result.  `tagAddr` is the `usaddress.tag` oracle. -/
def adminNVal (a : Admin) : NVal :=
  NVal.vdict [("Name & Position", NVal.vstr a.name_and_position),
    ("Phone", NVal.vstr a.phone), ("Email", NVal.vstr a.email)]

def normKeys : List String :=
  ["CDS Code", "County", "District", "School", "School Type", "Sector Type",
   "Charter School", "Status", "Open Date", "Educational Program Type",
   "Low Grade", "High Grade", "Public School", "Charter Number",
   "Charter Funding Type", "Magnet School", "Year Round",
   "Virtual Instruction", "Multilingual Instruction",
   "Federal Charter District ID", "NCES Federal School ID", "Enrollment",
   "English Language Learners", "Full Address", "Street Address",
   "Address Line 2", "City", "State", "Zip Code", "Mailing Address",
   "Phone Number", "Fax Number", "Email", "Web Address", "Administrators",
   "CDS Coordinator", "Last Updated"]

def normalize_school_data
    (tagAddr : String → Option (List (String × String)))
    (raw : List (String × String)) : Option (List (String × NVal)) :=
  match parse_english_language_learners
      (get_value raw ["English Language Learners"]) with
  | none => none
  | some ellVal =>
    let cds : NVal :=
      match get_value raw ["cds_code", "CDS Code"] with
      | some s => NVal.vstr (s.replace " " "")
      | none => NVal.vnone
    let full_addr := String.mk
      (clean_text ((get_value raw ["School Address", "Address"]).map
        String.toList))
    let comps := extract_address_components tagAddr full_addr
    some [("CDS Code", cds),
      ("County", ovStr (get_value raw ["county", "County"])),
      ("District", ovStr (get_value raw ["district", "District"])),
      ("School", ovStr (get_value raw ["school", "School"])),
      ("School Type", ovStr (get_value raw ["school_type", "School Type"])),
      ("Sector Type", ovStr (get_value raw ["sector_type"])),
      ("Charter School", ovStr (get_value raw ["charter", "Charter School"])),
      ("Status", ovStr (get_value raw ["status", "Status"])),
      ("Open Date", ovStr (get_value raw ["Open Date"])),
      ("Educational Program Type",
        ovStr (get_value raw ["Educational Program Type"])),
      ("Low Grade", try_int (get_value raw ["Low Grade"])),
      ("High Grade", try_int (get_value raw ["High Grade"])),
      ("Public School", ovStr (get_value raw ["Public School"])),
      ("Charter Number", ovStr (get_value raw ["Charter Number"])),
      ("Charter Funding Type",
        ovStr (get_value raw ["Charter Funding Type"])),
      ("Magnet School", ovStr (get_value raw ["Magnet", "Magnet School"])),
      ("Year Round", ovStr (get_value raw ["Year Round"])),
      ("Virtual Instruction", ovStr (get_value raw ["Virtual Instruction"])),
      ("Multilingual Instruction",
        ovStr (get_value raw ["Multilingual Instruction"])),
      ("Federal Charter District ID",
        ovStr (get_value raw ["Federal Charter District ID"])),
      ("NCES Federal School ID",
        ovStr (get_value raw ["NCES/Federal School ID"])),
      ("Enrollment", try_int (get_value raw ["Enrollment"])),
      ("English Language Learners", ellVal),
      ("Full Address", NVal.vstr full_addr),
      ("Street Address", NVal.vstr comps.1),
      ("Address Line 2", NVal.vstr comps.2.1),
      ("City", NVal.vstr comps.2.2.1),
      ("State", NVal.vstr comps.2.2.2.1),
      ("Zip Code", NVal.vstr comps.2.2.2.2),
      ("Mailing Address", NVal.vstr (String.mk
        (clean_text ((get_value raw ["Mailing Address"]).map
          String.toList)))),
      ("Phone Number", ovStr (get_value raw ["Phone Number", "Phone"])),
      ("Fax Number", ovStr (get_value raw ["Fax Number"])),
      ("Email", NVal.vstr (match get_value raw ["Email"] with
        | some e => String.mk (clean_text_chars e.toList)
        | none => "")),
      ("Web Address", NVal.vstr (String.mk
        (clean_text ((get_value raw ["Web Address", "Web site*"]).map
          String.toList)))),
      ("Administrators", NVal.vlist
        ((parse_administrators (get_value raw ["Administrator"])).map
          adminNVal)),
      ("CDS Coordinator", parse_cds_coordinator
        (get_value raw ["CDS Coordinator (Contact for Data Updates)"])),
      ("Last Updated", ovStr (get_value raw ["Last Updated"]))]

/-! ## SpreadsheetBuilder (src/logic/spreadsheet_builder.py)

A school JSON file carries, besides identity fields, a `Public School`
flag (string, possibly missing), an `Enrollment` (integer or JSON null,
possibly missing) and a `Black Population Ratio` (number or JSON null,
possibly missing, written by the enrichment stage).  In `RawSchool` the
outer `Option` of the numeric fields is key presence and the inner one is
null versus value.  `_load_json_files` coerces both numeric fields with
`_safe_int` and `_safe_float`, whose `except` branch turns `None` (the
`TypeError` of `int(None)`/`float(None)`) into the default; `School` is
the record after that coercion, plus the `Composite Score` and
`Ranking Score` keys the processing steps add. -/
structure RawSchool where
  cds : String
  name : String
  fullAddress : String
  phone : String
  admins : List Admin
  publicFlag : Option String
  enrollment : Option (Option Int)
  ratio : Option (Option Rat)
deriving DecidableEq, Repr

structure School where
  cds : String
  name : String
  fullAddress : String
  phone : String
  admins : List Admin
  publicFlag : Option String
  enrollment : Int
  ratio : Rat
  compositeScore : Option Rat
  rankingScore : Option Rat
deriving DecidableEq, Repr

def safe_int (value : Option Int) (default : Int) : Int :=
  match value with
  | some n => n
  | none => default

def safe_float (value : Option Rat) (default : Rat) : Rat :=
  match value with
  | some q => q
  | none => default

/-- Per-file body of `_load_json_files` (lines 80-97):
`data.get(field, 0)` supplies `0` for a missing key, then the safe
coercion maps an explicit null to the default `0`. -/
def loadSchool (r : RawSchool) : School :=
  { cds := r.cds, name := r.name, fullAddress := r.fullAddress,
    phone := r.phone, admins := r.admins, publicFlag := r.publicFlag,
    enrollment := safe_int (r.enrollment.getD (some 0)) 0,
    ratio := safe_float (r.ratio.getD (some 0)) 0,
    compositeScore := none, rankingScore := none }

def stripString (s : String) : String := String.mk (stripL s.toList)

/-- Python `str.lower()`, character by character (ASCII). -/
def lowerString (s : String) : String := String.mk (s.toList.map Char.toLower)

/-- The test of `_separate_public_private` (line 107):
`str(school.get("Public School", "")).strip().lower() == "yes"`. -/
def publicFlagIsYes (s : School) : Bool :=
  lowerString (stripString (s.publicFlag.getD "")) == "yes"

def separate_public_private (schools : List School) :
    List School × List School :=
  (schools.filter publicFlagIsYes,
    schools.filter (fun s => !publicFlagIsYes s))

/-- Python `sorted(key=key, reverse=True)`: stable descending order.
Insertion sort inserting each element before the first already-placed
element with key less than or equal to its own reproduces exactly that
(equal keys keep original order). -/
def sortDescBy (key : School → Rat) (l : List School) : List School :=
  List.insertionSort (fun a b => key b ≤ key a) l

/-- Python `max(school["Enrollment"] for school in public_schools)` on a
nonempty list (the empty case raises, but the caller returns first). -/
def max_enrollment : List School → Int
  | [] => 0
  | s :: rest => rest.foldl (fun a b => max a b.enrollment) s.enrollment

/-- Line 126: `enrollment / max if max else 0`, then the blend of
line 128. -/
def composite_of (maxE : Int) (s : School) : Rat :=
  0.5 * (if maxE ≠ 0 then (s.enrollment : Rat) / (maxE : Rat) else 0) +
    0.5 * s.ratio

def process_public_schools (public_schools : List School) :
    Except String (List School) :=
  if public_schools.isEmpty then Except.ok []
  else
    let maxE := max_enrollment public_schools
    if maxE = 0 then
      Except.error
        "Max enrollment among public schools is zero; cannot perform normalization."
    else
      Except.ok (sortDescBy (fun s => s.compositeScore.getD 0)
        (public_schools.map (fun s =>
          { s with compositeScore := some (composite_of maxE s) })))

def process_private_schools (private_schools : List School) :
    List School :=
  sortDescBy (fun s => s.rankingScore.getD 0)
    (private_schools.map (fun s => { s with rankingScore := some s.ratio }))

structure PubRow where
  schoolID : String
  schoolName : String
  address : String
  phoneNumber : String
  emailAddress : String
  enrollment : Int
  blackPopulationRatio : Rat
  compositeScore : Rat
  contactPerson : String
  emailSent : String
  lastContactDate : String
  nextFollowUp : String
  callLog : String
  campaignStatus : String
  additionalComments : String
deriving DecidableEq, Repr

structure PrivRow where
  schoolID : String
  schoolName : String
  address : String
  phoneNumber : String
  emailAddress : String
  blackPopulationRatio : Rat
  rankingScore : Rat
  contactPerson : String
  emailSent : String
  lastContactDate : String
  nextFollowUp : String
  callLog : String
  campaignStatus : String
  additionalComments : String
deriving DecidableEq, Repr

def get_admin_name (s : School) : String :=
  match s.admins with
  | a :: _ => a.name_and_position
  | [] => ""

def get_admin_email (s : School) : String :=
  match s.admins with
  | a :: _ => a.email
  | [] => ""

def build_public_dict (s : School) : PubRow :=
  { schoolID := s.cds, schoolName := s.name, address := s.fullAddress,
    phoneNumber := s.phone, emailAddress := get_admin_email s,
    enrollment := s.enrollment, blackPopulationRatio := s.ratio,
    compositeScore := s.compositeScore.getD 0,
    contactPerson := get_admin_name s, emailSent := "",
    lastContactDate := "", nextFollowUp := "", callLog := "",
    campaignStatus := "", additionalComments := "" }

def build_private_dict (s : School) : PrivRow :=
  { schoolID := s.cds, schoolName := s.name, address := s.fullAddress,
    phoneNumber := s.phone, emailAddress := get_admin_email s,
    blackPopulationRatio := s.ratio,
    rankingScore := s.rankingScore.getD 0,
    contactPerson := get_admin_name s, emailSent := "",
    lastContactDate := "", nextFollowUp := "", callLog := "",
    campaignStatus := "", additionalComments := "" }

/-- The `run` method of `SpreadsheetBuilder` (lines 53-78), without the
file I/O: load, raise when nothing was loaded, segment, score both
segments, build the two row sets. -/
def buildSheets (raws : List RawSchool) :
    Except String (List PubRow × List PrivRow) :=
  let schools := raws.map loadSchool
  if schools.isEmpty then
    Except.error "No valid school data found"
  else
    match process_public_schools (separate_public_private schools).1 with
    | Except.error e => Except.error e
    | Except.ok pubSorted =>
      Except.ok (pubSorted.map build_public_dict,
        (process_private_schools
          (separate_public_private schools).2).map build_private_dict)

/-! ## Concrete records for the spreadsheet-stage claims -/
def blankSchool : School :=
  { cds := "", name := "", fullAddress := "", phone := "", admins := [],
    publicFlag := none, enrollment := 0, ratio := 0,
    compositeScore := none, rankingScore := none }

def blankRaw : RawSchool :=
  { cds := "", name := "", fullAddress := "", phone := "", admins := [],
    publicFlag := none, enrollment := none, ratio := none }

def rawPubA : RawSchool :=
  { blankRaw with
    cds := "A", name := "Alpha", publicFlag := some "Yes",
    enrollment := some (some 100), ratio := some (some (1/5)) }

def rawPubB : RawSchool :=
  { blankRaw with
    cds := "B", name := "Beta", publicFlag := some "Yes",
    enrollment := some (some 50), ratio := some (some (2/5)) }

def rawPrivC : RawSchool :=
  { blankRaw with
    cds := "C", name := "Gamma", publicFlag := some "No",
    enrollment := some (some 30), ratio := some (some (1/10)) }

/-- A private-segment record whose ratio field holds an explicit JSON
null. -/
def rawPrivNull : RawSchool :=
  { blankRaw with
    cds := "N", name := "NullRatio", publicFlag := some "No",
    enrollment := some (some 10), ratio := some none }

/-! ## Orchestrator.run (src/logic/scraper/orchestrator.py, lines 44-84)

A listing is its scraped label-to-string dictionary.  The loop skips (with
`continue`) a listing whose `cds_code` is missing or empty, otherwise
processes it; at the END of a processed iteration, test mode breaks once
the zero-based index has reached 9 (the hard-coded cap of ten schools).
The `continue` jumps past the break check, so a skipped listing never
triggers the stop.  `run_processed` returns, in order, the listings the
loop processes; there is no `max_entities` parameter anywhere in the
source, only the boolean `test_mode`. -/
def run_processed (test_mode : Bool) :
    List (List (String × String)) → Nat → List (List (String × String))
  | [], _ => []
  | school :: rest, idx =>
    if (dictGet school "cds_code").getD "" = "" then
      run_processed test_mode rest (idx + 1)
    else
      school :: (if test_mode ∧ 9 ≤ idx then []
        else run_processed test_mode rest (idx + 1))

def orchestrator_processed (test_mode : Bool)
    (listings : List (List (String × String))) :
    List (List (String × String)) :=
  run_processed test_mode listings 0

def elevenListings : List (List (String × String)) :=
  [[("cds_code", "01")], [("cds_code", "02")], [("cds_code", "03")],
   [("cds_code", "04")], [("cds_code", "05")], [("cds_code", "06")],
   [("cds_code", "07")], [("cds_code", "08")], [("cds_code", "09")],
   [("cds_code", "10")], [("cds_code", "11")]]

/-! ## DemographicCalculator._enrich_single_file
(src/logic/demographic_calculator.py, lines 86-116)

    city = school_data.get('City')
    ratio = None
    if city and city in self.city_data:
        total = self.city_data[city]['total_population']
        black = self.city_data[city]['black_population']
        if total and total != 0 and black is not None:
            ratio = black / total

The city table maps a locality name to its
`(total_population, black_population)` pair, each `Option Int` (the CSV
loader yields `None` for unparsable counts).  `city` is `none` when the
`City` key is missing; Python truthiness makes the empty string fail the
`if city` test even when it is a key of the table. -/
def black_population_ratio
    (city_data : List (String × (Option Int × Option Int)))
    (city : Option String) : Option Rat :=
  match city with
  | none => none
  | some c =>
    if c.isEmpty then none
    else
      match dictGet city_data c with
      | none => none
      | some (total, black) =>
        match total, black with
        | some tv, some bv =>
          if tv ≠ 0 then some ((bv : Rat) / (tv : Rat)) else none
        | _, _ => none

theorem dictGet_cons {V : Type} (p : String × V) (rest : List (String × V))
    (k : String) :
    dictGet (p :: rest) k = if p.1 = k then some p.2 else dictGet rest k := by
  by_cases hp : p.1 = k
  · simp [dictGet, List.find?, hp]
  · simp [dictGet, List.find?, decide_eq_false hp, hp]

theorem dictGet_dictSet {V : Type} (d : List (String × V)) (k : String)
    (v : V) (k' : String) :
    dictGet (dictSet d k v) k' = if k' = k then some v else dictGet d k' := by
  induction d with
  | nil =>
    by_cases h : k' = k
    · subst h; simp [dictGet, dictSet, List.find?]
    · simp [dictGet, dictSet, List.find?,
        decide_eq_false (fun hh => h (Eq.symm hh)), h]
  | cons p rest ih =>
    by_cases hp : p.1 = k
    · simp only [dictSet, hp, if_true, eq_self_iff_true]
      rw [dictGet_cons, dictGet_cons]
      by_cases h : k' = k
      · simp [h]
      · have hp' : ¬ p.1 = k' := fun hh => h (hh.symm.trans hp)
        have hk : ¬ k = k' := fun hh => h hh.symm
        simp [h, hk, hp']
    · simp only [dictSet, hp, if_false]
      rw [dictGet_cons, dictGet_cons, ih]
      by_cases hq : p.1 = k'
      · have h : ¬ k' = k := fun hh => hp (hq.trans hh)
        simp [hq, h]
      · simp [hq]

theorem dictGet_eq_none_of_not_mem {V : Type} (d : List (String × V))
    (k : String) (h : k ∉ dictKeys d) : dictGet d k = none := by
  induction d with
  | nil => rfl
  | cons p rest ih =>
    simp only [dictKeys, List.map_cons, List.mem_cons] at h
    push_neg at h
    have hp : (p.1 = k) = False := by
      simp only [eq_iff_iff, iff_false]; exact fun hh => h.1 hh.symm
    simp only [dictGet, List.find?, hp]
    exact ih (by simpa [dictKeys] using h.2)

theorem dictGet_isSome_iff_mem {V : Type} (d : List (String × V))
    (k : String) : (dictGet d k).isSome ↔ k ∈ dictKeys d := by
  induction d with
  | nil => simp [dictGet, dictKeys, List.find?]
  | cons p rest ih =>
    by_cases hp : p.1 = k
    · simp [dictGet, dictKeys, List.find?, hp]
    · have hp' : (p.1 = k) = False := by simp [hp]
      simp only [dictGet, List.find?, hp', dictKeys, List.map_cons,
        List.mem_cons]
      constructor
      · intro h
        exact Or.inr ((ih).mp (by simpa [dictGet] using h))
      · intro h
        rcases h with h | h
        · exact absurd h.symm hp
        · simpa [dictGet] using (ih).mpr h

theorem dictGet_dictUpdate {V : Type} (src : List (String × V))
    (h : NodupKeys src) (d : List (String × V)) (k : String) :
    dictGet (dictUpdate d src) k = orFirst (dictGet src k) (dictGet d k) := by
  induction src generalizing d with
  | nil => simp [dictUpdate, dictGet, List.find?, orFirst]
  | cons p rest ih =>
    have hn : NodupKeys rest := by
      simpa [NodupKeys, dictKeys] using (List.nodup_cons.mp h).2
    have hni : p.1 ∉ dictKeys rest := by
      have := (List.nodup_cons.mp h).1
      simpa [dictKeys] using this
    simp only [dictUpdate, List.foldl_cons]
    have step : List.foldl (fun acc q => dictSet acc q.1 q.2)
        (dictSet d p.1 p.2) rest = dictUpdate (dictSet d p.1 p.2) rest := rfl
    rw [step, ih hn, dictGet_cons, dictGet_dictSet]
    by_cases hk : k = p.1
    · rw [hk]
      rw [dictGet_eq_none_of_not_mem rest p.1 hni]
      simp [orFirst]
    · have hp' : ¬ p.1 = k := fun hh => hk hh.symm
      simp [hk, hp']

theorem orFirst_none_right {V : Type} (a : Option V) : orFirst a none = a := by
  cases a <;> rfl

/-- Claim C1: for every listing record, detail fragment, and supplemental
fragment, `merge_data` resolves key collisions with the supplemental
fragment (`additional`) winning over the detail fragment (`details`),
which wins over the listing (`basic`); and every key present in any of the
three layers appears in the merged record with its original value (no
field is dropped). -/
theorem merge_data_precedence
    (basic details additional : List (String × String))
    (hb : NodupKeys basic) (hd : NodupKeys details)
    (ha : NodupKeys additional) :
    (∀ k, dictGet (merge_data basic details additional) k =
        orFirst (dictGet additional k)
          (orFirst (dictGet details k) (dictGet basic k))) ∧
    (∀ k, k ∈ dictKeys (merge_data basic details additional) ↔
        (k ∈ dictKeys basic ∨ k ∈ dictKeys details ∨
          k ∈ dictKeys additional)) := by
  have hmain : ∀ k, dictGet (merge_data basic details additional) k =
      orFirst (dictGet additional k)
        (orFirst (dictGet details k) (dictGet basic k)) := by
    intro k
    unfold merge_data
    rw [dictGet_dictUpdate additional ha, dictGet_dictUpdate details hd,
      dictGet_dictUpdate basic hb]
    have hnil : dictGet ([] : List (String × String)) k = none := rfl
    rw [hnil, orFirst_none_right]
  refine ⟨hmain, ?_⟩
  intro k
  rw [← dictGet_isSome_iff_mem, hmain k,
    ← dictGet_isSome_iff_mem basic k, ← dictGet_isSome_iff_mem details k,
    ← dictGet_isSome_iff_mem additional k]
  cases dictGet basic k <;> cases dictGet details k <;>
    cases dictGet additional k <;> simp [orFirst]

/-- Witness for Claim C1 at concrete three-layer records: key `a` appears
in all three layers and the supplemental value wins; keys of single layers
survive. -/
theorem merge_data_precedence_witness :
    NodupKeys [("a", "b1"), ("c", "c1")] ∧
    dictGet (merge_data [("a", "b1"), ("c", "c1")]
        [("a", "d1"), ("e", "e1")] [("a", "s1"), ("f", "f1")]) "a" =
      orFirst (dictGet [("a", "s1"), ("f", "f1")] "a")
        (orFirst (dictGet [("a", "d1"), ("e", "e1")] "a")
          (dictGet [("a", "b1"), ("c", "c1")] "a")) :=
  ⟨by decide,
    (merge_data_precedence [("a", "b1"), ("c", "c1")]
      [("a", "d1"), ("e", "e1")] [("a", "s1"), ("f", "f1")]
      (by decide) (by decide) (by decide)).1 "a"⟩

theorem splitEmailsF_map_snd (fuel : Nat) :
    ∀ acc s, (splitEmailsF fuel acc s).map Prod.snd =
      (splitWSF fuel s).filter isEmailToken := by
  induction fuel with
  | zero => intro acc s; rfl
  | succ n ih =>
    intro acc s
    simp only [splitEmailsF, splitWSF]
    by_cases h1 : ((s.dropWhile pyIsSpace).takeWhile notSpace).isEmpty
    · simp [h1]
    · by_cases h2 : isEmailToken ((s.dropWhile pyIsSpace).takeWhile notSpace)
      · simp [h1, h2, List.filter_cons, ih]
      · simp [h1, h2, List.filter_cons, ih]

/-- Claim C6: `parse_administrators` splits the cleaned blob at embedded
email addresses and yields one contact per email, in order of appearance,
each built from the text segment preceding its email by `adminOfSegment`
(first `(NNN) NNN-NNNN` match as the phone, empty if none; the remaining
tokens with the phone text removed and isolated `0` tokens dropped,
joined by single spaces, as the name and position).  An input whose
cleaned text has no email token yields the empty list, and the
spec example
`"Jane Doe Principal (555) 123-4567 jane@school.org"` yields exactly one
contact with the three expected fields. -/
theorem parse_administrators_spec :
    (∀ s : String, parse_administrators (some s) =
        (splitEmails (clean_text_chars s.toList)).map adminOfSegment) ∧
    (∀ s : String,
        (splitWS (clean_text_chars s.toList)).filter isEmailToken = [] →
        parse_administrators (some s) = []) ∧
    parse_administrators
        (some "Jane Doe Principal (555) 123-4567 jane@school.org") =
      [{ name_and_position := "Jane Doe Principal",
         phone := "(555) 123-4567", email := "jane@school.org" }] ∧
    parse_administrators (some "No Email Here (555) 123-4567") = [] ∧
    parse_administrators none = [] := by
  have hmap : ∀ s : String, parse_administrators (some s) =
      (splitEmails (clean_text_chars s.toList)).map adminOfSegment := by
    intro s
    cases h : s.isEmpty with
    | true =>
      have hs : s = "" := (String.isEmpty_iff s).mp h
      subst hs; rfl
    | false =>
      simp [parse_administrators, h]
  refine ⟨hmap, ?_, by decide, by decide, rfl⟩
  intro s h
  rw [hmap s]
  have h2 : (splitEmails (clean_text_chars s.toList)).map Prod.snd =
      (splitWSF (clean_text_chars s.toList).length
        (clean_text_chars s.toList)).filter isEmailToken :=
    splitEmailsF_map_snd _ _ _
  have h3 : (splitWSF (clean_text_chars s.toList).length
      (clean_text_chars s.toList)).filter isEmailToken = [] := h
  rw [h3] at h2
  cases hsp : splitEmails (clean_text_chars s.toList) with
  | nil => rfl
  | cons a l => rw [hsp] at h2; simp at h2

/-- Witness for Claim C6: a concrete input with no email address yields
the empty contact list. -/
theorem parse_administrators_spec_witness :
    parse_administrators (some "Plain text without an at sign") = [] :=
  parse_administrators_spec.2.1 "Plain text without an at sign" (by decide)

/-- Claim C9 (amended): for every raw record and address-tagger oracle,
when normalization completes it produces a record whose top-level key
list is exactly the fixed `normKeys` schema, independent of the input;
every key is present with a defined (possibly null or empty) value.  (The
keys of nested sub-records are not fixed; see the counterexample.) -/
theorem normalize_school_data_keys_fixed
    (tagAddr : String → Option (List (String × String)))
    (raw : List (String × String)) (out : List (String × NVal))
    (h : normalize_school_data tagAddr raw = some out) :
    dictKeys out = normKeys := by
  unfold normalize_school_data at h
  cases hell : parse_english_language_learners
      (get_value raw ["English Language Learners"]) with
  | none => rw [hell] at h; exact absurd h (by simp)
  | some v =>
    rw [hell] at h
    simp only [Option.some.injEq] at h
    subst h
    rfl

/-- Witness for Claim C9: normalizing the empty raw record yields exactly
the fixed key schema. -/
theorem normalize_school_data_keys_fixed_witness :
    dictKeys ((normalize_school_data (fun _ => none) []).getD []) =
      normKeys :=
  normalize_school_data_keys_fixed (fun _ => none) []
    ((normalize_school_data (fun _ => none) []).getD []) rfl

/-- Counterexample for Claim C9 as stated: the key set of the nested
coordinator sub-record is NOT identical across records.  A record with no
coordinator field normalizes to an empty coordinator dictionary (no
`Name`, no `Phone` key), while a record with a coordinator field
normalizes to a two-key dictionary. -/
theorem normalize_school_data_nested_keys_counterexample :
    (normalize_school_data (fun _ => none) []).map
        (fun out => dictGet out "CDS Coordinator") =
      some (some (NVal.vdict [])) ∧
    (normalize_school_data (fun _ => none)
        [("CDS Coordinator (Contact for Data Updates)",
          "Abraham Zamora (510) 670-4131")]).map
        (fun out => dictGet out "CDS Coordinator") =
      some (some (NVal.vdict [("Name", NVal.vstr "Abraham Zamora"),
        ("Phone", NVal.vstr "(510) 670-4131")])) ∧
    dictKeys ([] : List (String × NVal)) ≠
      dictKeys [("Name", NVal.vstr "Abraham Zamora"),
        ("Phone", NVal.vstr "(510) 670-4131")] := by
  refine ⟨rfl, rfl, ?_⟩
  intro h
  simp [dictKeys] at h

theorem dictGet_filterKey {V : Type} (d : List (String × V))
    (k k' : String) :
    dictGet (d.filter (fun p => p.1 ≠ k)) k' =
      if k' = k then none else dictGet d k' := by
  induction d with
  | nil => by_cases h : k' = k <;> simp [dictGet, h]
  | cons p rest ih =>
    by_cases hpk : p.1 = k
    · have hb : (decide (p.1 ≠ k)) = false := by simp [hpk]
      simp only [List.filter_cons, hb, Bool.false_eq_true, if_false]
      rw [ih, dictGet_cons]
      by_cases hk : k' = k
      · simp [hk]
      · have hp' : ¬ p.1 = k' := fun hh => hk (hh.symm.trans hpk)
        simp [hk, hp']
    · have hb : (decide (p.1 ≠ k)) = true := by simp [hpk]
      simp only [List.filter_cons, hb, if_true]
      rw [dictGet_cons, ih, dictGet_cons]
      by_cases hk : k' = k
      · have hp' : ¬ p.1 = k' := fun hh => hpk (hh.trans hk)
        simp [hk, hp', hpk]
      · simp [hk]

/-- Claim C10: `get_value` returns the value of the first alias whose
value is truthy (a nonempty string on the string-valued records of this
pipeline); an alias bound to the empty string is skipped exactly like a
missing alias, the lookup returns `none` when no alias has a truthy
value, and a record with a field bound to the empty string is
indistinguishable through `get_value` from the record with that field
deleted. -/
theorem get_value_first_truthy :
    (∀ data : List (String × String), get_value data [] = none) ∧
    (∀ (data : List (String × String)) (k : String) (ks : List String)
        (v : String), dictGet data k = some v → ¬ v = "" →
        get_value data (k :: ks) = some v) ∧
    (∀ (data : List (String × String)) (k : String) (ks : List String),
        dictGet data k = some "" →
        get_value data (k :: ks) = get_value data ks) ∧
    (∀ (data : List (String × String)) (k : String) (ks : List String),
        dictGet data k = none →
        get_value data (k :: ks) = get_value data ks) ∧
    (∀ (data : List (String × String)) (k : String),
        dictGet data k = some "" → ∀ ks : List String,
        get_value data ks =
          get_value (data.filter (fun p => p.1 ≠ k)) ks) := by
  refine ⟨fun _ => rfl, ?_, ?_, ?_, ?_⟩
  · intro data k ks v h hv
    have hb : v.isEmpty = false := by
      cases hh : v.isEmpty
      · rfl
      · exact absurd ((String.isEmpty_iff v).mp hh) hv
    simp [get_value, h, hb]
  · intro data k ks h
    simp [get_value, h, String.isEmpty]
  · intro data k ks h
    simp [get_value, h]
  · intro data k h ks
    induction ks with
    | nil => rfl
    | cons k0 ks ih =>
      simp only [get_value, dictGet_filterKey]
      by_cases hk0 : k0 = k
      · subst hk0
        rw [h]
        simp only [if_pos rfl]
        simpa [String.isEmpty] using ih
      · simp only [hk0, if_false]
        cases hg : dictGet data k0 with
        | none => exact ih
        | some v =>
          by_cases hv : v.isEmpty
          · simp [hv, ih]
          · simp [hv]

/-- Witness for Claim C10: on a concrete record where alias `A` is bound
to the empty string, the lookup skips to alias `B`, and deleting `A`
changes nothing. -/
theorem get_value_first_truthy_witness :
    (get_value [("A", ""), ("B", "x")] ["A", "B"] = some "x") ∧
    (get_value [("A", ""), ("B", "x")] ["A", "B"] =
      get_value ([("A", ""), ("B", "x")].filter (fun p => p.1 ≠ "A"))
        ["A", "B"]) :=
  ⟨rfl, get_value_first_truthy.2.2.2.2 [("A", ""), ("B", "x")] "A" rfl
    ["A", "B"]⟩

theorem sortDescBy_perm (key : School → Rat) (l : List School) :
    (sortDescBy key l).Perm l := List.perm_insertionSort _ l

theorem sortDescBy_sorted (key : School → Rat) (l : List School) :
    (sortDescBy key l).Sorted (fun a b => key b ≤ key a) := by
  haveI : IsTotal School (fun a b => key b ≤ key a) :=
    ⟨fun a b => le_total (key b) (key a)⟩
  haveI : IsTrans School (fun a b => key b ≤ key a) :=
    ⟨fun a b c hab hbc => le_trans hbc hab⟩
  exact List.sorted_insertionSort _ l

theorem filter_length_partition {α : Type} (p : α → Bool) (l : List α) :
    (l.filter p).length + (l.filter (fun a => !p a)).length = l.length := by
  induction l with
  | nil => rfl
  | cons a l ih =>
    cases h : p a <;> simp [List.filter_cons, h] <;> omega

/-- Counterexample for Claim C2 as stated: an EMPTY public segment does
not raise the fatal precondition error; `_process_public_schools` returns
the empty list successfully (only a non-empty all-zero segment raises). -/
theorem process_public_schools_empty_counterexample :
    process_public_schools [] = Except.ok [] := rfl

/-- Claim C2 (amended): a NON-EMPTY public segment in which every
enrollment is 0 raises the fatal precondition error before computing any
composite score; the empty segment returns an empty result without
scoring anything; in neither case is a division performed with a zero
maximum. -/
theorem process_public_schools_zero_enrollment_error
    (pubs : List School) (hne : ¬ pubs = [])
    (hz : ∀ s ∈ pubs, s.enrollment = 0) :
    process_public_schools pubs = Except.error
      "Max enrollment among public schools is zero; cannot perform normalization." := by
  have hfold : ∀ l : List School, (∀ x ∈ l, x.enrollment = 0) →
      l.foldl (fun a b => max a b.enrollment) 0 = 0 := by
    intro l
    induction l with
    | nil => intro _; rfl
    | cons x xs ih =>
      intro hall
      have hx : x.enrollment = 0 := hall x (List.mem_cons_self x xs)
      simp only [List.foldl_cons, hx, max_self]
      exact ih (fun y hy => hall y (List.mem_cons_of_mem x hy))
  have hmax : max_enrollment pubs = 0 := by
    cases pubs with
    | nil => exact absurd rfl hne
    | cons s rest =>
      have hs : s.enrollment = 0 := hz s (List.mem_cons_self s rest)
      simp only [max_enrollment, hs]
      exact hfold rest (fun y hy => hz y (List.mem_cons_of_mem s hy))
  have hne' : pubs.isEmpty = false := by
    cases pubs with
    | nil => exact absurd rfl hne
    | cons s rest => rfl
  simp [process_public_schools, hne', hmax]

/-- Witness for Claim C2: a concrete one-school segment with enrollment 0
raises the error. -/
theorem process_public_schools_zero_enrollment_error_witness :
    process_public_schools [{ blankSchool with publicFlag := some "Yes" }]
      = Except.error
      "Max enrollment among public schools is zero; cannot perform normalization." :=
  process_public_schools_zero_enrollment_error
    [{ blankSchool with publicFlag := some "Yes" }]
    (by decide) (by decide)

/-- Claim C3: on every non-empty public segment with positive maximum
enrollment, `_process_public_schools` succeeds, every returned school
carries composite score
`0.5 * (enrollment / max_enrollment) + 0.5 * ratio` (the ratio field
already holds 0 for a null source value, by loading), the result is a
permutation of the scored input, and it is ordered descending by
composite score.  On the spec example of three listings the public sheet
ranks A (score 3/5) above B (score 9/20) and the private sheet is the
single row C with score 1/10. -/
theorem public_composite_scoring (pubs : List School)
    (hne : ¬ pubs = []) (hpos : 0 < max_enrollment pubs) :
    (∃ l, process_public_schools pubs = Except.ok l ∧
      l.Perm (pubs.map (fun s =>
        { s with
          compositeScore := some (composite_of (max_enrollment pubs) s) })) ∧
      (∀ s ∈ l, s.compositeScore =
        some (0.5 * ((s.enrollment : Rat) / (max_enrollment pubs : Rat)) +
          0.5 * s.ratio)) ∧
      l.Sorted (fun a b =>
        b.compositeScore.getD 0 ≤ a.compositeScore.getD 0)) ∧
    ((buildSheets [rawPubA, rawPubB, rawPrivC]).toOption.map (fun sheets =>
      (sheets.1.map (fun r => (r.schoolID, r.compositeScore)),
       sheets.2.map (fun r =>
         (r.schoolID, r.rankingScore, r.blackPopulationRatio))))) =
      some ([("A", 3/5), ("B", 9/20)], [("C", 1/10, 1/10)]) := by
  constructor
  · have hne' : pubs.isEmpty = false := by
      cases pubs with
      | nil => exact absurd rfl hne
      | cons a l => rfl
    have hz : ¬ max_enrollment pubs = 0 := by
      intro h; rw [h] at hpos; exact lt_irrefl 0 hpos
    have hres : process_public_schools pubs = Except.ok
        (sortDescBy (fun s => s.compositeScore.getD 0)
          (pubs.map (fun s =>
            { s with
              compositeScore :=
                some (composite_of (max_enrollment pubs) s) }))) := by
      simp [process_public_schools, hne', hz]
    refine ⟨_, hres, sortDescBy_perm _ _, ?_, sortDescBy_sorted _ _⟩
    intro s hs
    have hs2 : s ∈ pubs.map (fun s =>
        { s with
          compositeScore := some (composite_of (max_enrollment pubs) s) }) :=
      (sortDescBy_perm _ _).mem_iff.mp hs
    obtain ⟨t, _, rfl⟩ := List.mem_map.mp hs2
    simp [composite_of, hz]
  · decide

/-- Witness for Claim C3 at the two concrete public schools of the spec
example. -/
theorem public_composite_scoring_witness :
    ∃ l, process_public_schools [loadSchool rawPubA, loadSchool rawPubB]
        = Except.ok l ∧
      ∀ s ∈ l, s.compositeScore = some (0.5 * ((s.enrollment : Rat) /
        (max_enrollment [loadSchool rawPubA, loadSchool rawPubB] : Rat)) +
        0.5 * s.ratio) := by
  obtain ⟨⟨l, h1, _, h3, _⟩, _⟩ :=
    public_composite_scoring [loadSchool rawPubA, loadSchool rawPubB]
      (by decide) (by decide)
  exact ⟨l, h1, h3⟩

/-- Claim C4: `_separate_public_private` classifies a record as public
exactly when its `Public School` flag, stripped and lowercased, equals
`yes`; every other record, including blank and missing flags, is private;
the two segments take every record and each record falls in exactly one
of them; the six flag examples of the spec classify as stated. -/
theorem separate_public_private_spec :
    (∀ schools : List School,
      (∀ s : School, s ∈ (separate_public_private schools).1 ↔
        (s ∈ schools ∧
          lowerString (stripString (s.publicFlag.getD "")) = "yes")) ∧
      (∀ s : School, s ∈ (separate_public_private schools).2 ↔
        (s ∈ schools ∧
          ¬ lowerString (stripString (s.publicFlag.getD "")) = "yes")) ∧
      (separate_public_private schools).1.length +
        (separate_public_private schools).2.length = schools.length) ∧
    publicFlagIsYes { blankSchool with publicFlag := some "Yes" } = true ∧
    publicFlagIsYes { blankSchool with publicFlag := some " yes " } = true ∧
    publicFlagIsYes { blankSchool with publicFlag := some "YES" } = true ∧
    publicFlagIsYes { blankSchool with publicFlag := some "No" } = false ∧
    publicFlagIsYes { blankSchool with publicFlag := some "" } = false ∧
    publicFlagIsYes { blankSchool with publicFlag := none } = false := by
  refine ⟨?_, by decide, by decide, by decide, by decide, by decide,
    by decide⟩
  intro schools
  refine ⟨?_, ?_, filter_length_partition _ _⟩
  · intro s
    simp [separate_public_private, List.mem_filter, publicFlagIsYes,
      beq_iff_eq]
  · intro s
    simp [separate_public_private, List.mem_filter, publicFlagIsYes,
      beq_iff_eq]

/-- Counterexample for Claim C5 as stated: for the concrete private
record whose ratio field is an explicit JSON null, the emitted private
row carries 0 in the ratio column (and 0 as the ranking score); the
original null is NOT preserved in the output, because
`_load_json_files` already coerces it with `_safe_float` before any
processing. -/
theorem private_null_ratio_counterexample :
    rawPrivNull.ratio = some none ∧
    ((buildSheets [rawPrivNull]).toOption.map (fun sheets =>
      sheets.2.map (fun r => (r.blackPopulationRatio, r.rankingScore)))) =
      some [((0 : Rat), (0 : Rat))] :=
  ⟨rfl, by decide⟩

/-- Claim C5 (amended): a private record with a null subgroup ratio is
loaded with ratio 0, ranked with score 0, and its output row carries 0 in
the ratio column as well; the null is treated as 0 everywhere
downstream of loading, not preserved in the output. -/
theorem private_null_ratio_amended (r : RawSchool)
    (h : r.ratio = some none) :
    (loadSchool r).ratio = 0 ∧
    process_private_schools [loadSchool r] =
      [{ loadSchool r with rankingScore := some 0 }] ∧
    (build_private_dict
      { loadSchool r with rankingScore := some 0 }).blackPopulationRatio
      = 0 ∧
    (build_private_dict
      { loadSchool r with rankingScore := some 0 }).rankingScore = 0 := by
  have h0 : (loadSchool r).ratio = 0 := by
    simp [loadSchool, h, safe_float]
  refine ⟨h0, ?_, ?_, rfl⟩
  · simp [process_private_schools, sortDescBy, List.insertionSort,
      List.orderedInsert, h0]
  · simp [build_private_dict, h0]

/-- Witness for Claim C5 at the concrete null-ratio record. -/
theorem private_null_ratio_amended_witness :
    (loadSchool rawPrivNull).ratio = 0 ∧
    process_private_schools [loadSchool rawPrivNull] =
      [{ loadSchool rawPrivNull with rankingScore := some 0 }] :=
  ⟨(private_null_ratio_amended rawPrivNull rfl).1,
   (private_null_ratio_amended rawPrivNull rfl).2.1⟩

theorem run_processed_test_take :
    ∀ l : List (List (String × String)),
      (∀ s ∈ l, ¬ (dictGet s "cds_code").getD "" = "") →
      ∀ idx, idx ≤ 9 → run_processed true l idx = l.take (10 - idx) := by
  intro l
  induction l with
  | nil => intro _ idx _; simp [run_processed]
  | cons s rest ih =>
    intro hall idx hidx
    have hs : ¬ (dictGet s "cds_code").getD "" = "" :=
      hall s (List.mem_cons_self s rest)
    by_cases h9 : 9 ≤ idx
    · have hidx9 : idx = 9 := le_antisymm hidx h9
      subst hidx9
      simp only [run_processed]
      rw [if_neg hs, if_pos ⟨trivial, h9⟩]
      simp
    · have h1 : idx + 1 ≤ 9 := by omega
      have h2 := ih (fun y hy => hall y (List.mem_cons_of_mem s hy))
        (idx + 1) h1
      have h3 : 10 - idx = (10 - (idx + 1)) + 1 := by omega
      simp only [run_processed]
      rw [if_neg hs, if_neg (by simp [h9]), h2, h3, List.take_succ_cons]

theorem run_processed_full :
    ∀ l : List (List (String × String)),
      (∀ s ∈ l, ¬ (dictGet s "cds_code").getD "" = "") →
      ∀ idx, run_processed false l idx = l := by
  intro l
  induction l with
  | nil => intro _ _; rfl
  | cons s rest ih =>
    intro hall idx
    have hs : ¬ (dictGet s "cds_code").getD "" = "" :=
      hall s (List.mem_cons_self s rest)
    simp only [run_processed]
    rw [if_neg hs, if_neg (by simp),
      ih (fun y hy => hall y (List.mem_cons_of_mem s hy)) (idx + 1)]

/-- Claim C7 (amended): the only bounded mode of the orchestrator is
`test_mode`, whose cap is the fixed constant 10.  When every listing has
an identifier, test mode processes exactly the first ten listings in list
order (or all of them when fewer are available) and the unbounded mode
processes all listings; the processed set is always a prefix of the
listing sequence, never a non-prefix subset.  The cap is enforced by a
break at the end of each processed iteration inside the fetch loop, not
before the loop, and no run-time bound N exists. -/
theorem orchestrator_bounded_prefix
    (listings : List (List (String × String)))
    (hall : ∀ s ∈ listings, ¬ (dictGet s "cds_code").getD "" = "") :
    orchestrator_processed true listings = listings.take 10 ∧
    orchestrator_processed false listings = listings := by
  constructor
  · have h := run_processed_test_take listings hall 0 (by omega)
    simpa [orchestrator_processed] using h
  · exact run_processed_full listings hall 0

/-- Counterexample for Claim C7 as stated: there is no settable bound N.
With two listings, both orchestrator configurations process both
listings, so no configuration processes exactly the first 1 listing:
the bound cannot be set to any N other than the hard-coded 10. -/
theorem orchestrator_no_settable_bound_counterexample :
    orchestrator_processed true
        [[("cds_code", "01")], [("cds_code", "02")]] =
      [[("cds_code", "01")], [("cds_code", "02")]] ∧
    orchestrator_processed false
        [[("cds_code", "01")], [("cds_code", "02")]] =
      [[("cds_code", "01")], [("cds_code", "02")]] ∧
    ([[("cds_code", "01")], [("cds_code", "02")]] :
        List (List (String × String))) ≠ [[("cds_code", "01")]] :=
  ⟨by decide, by decide, by decide⟩

/-- Witness for Claim C7: with eleven concrete listings, test mode
processes exactly the first ten and the unbounded mode all eleven. -/
theorem orchestrator_bounded_prefix_witness :
    orchestrator_processed true elevenListings = elevenListings.take 10 ∧
    orchestrator_processed false elevenListings = elevenListings :=
  orchestrator_bounded_prefix elevenListings (by decide)

/-- Claim C8 (amended): the enrichment ratio is
`black_population / total_population` exactly when the locality is a
NON-EMPTY string that is a key of the table, the total is present and
non-zero, and the subgroup count is present; in every other case
(locality missing, empty, or unknown; total null or zero; subgroup null)
the ratio is null, and no division by zero is ever performed. -/
theorem black_population_ratio_spec
    (city_data : List (String × (Option Int × Option Int)))
    (city : Option String) (q : Rat) :
    black_population_ratio city_data city = some q ↔
      ∃ c tv bv, city = some c ∧ ¬ c = "" ∧
        dictGet city_data c = some (some tv, some bv) ∧ ¬ tv = 0 ∧
        q = (bv : Rat) / (tv : Rat) := by
  constructor
  · intro h
    cases city with
    | none => simp [black_population_ratio] at h
    | some c =>
      by_cases hc : c.isEmpty
      · simp [black_population_ratio, hc] at h
      · cases hg : dictGet city_data c with
        | none => simp [black_population_ratio, hc, hg] at h
        | some pr =>
          obtain ⟨total, black⟩ := pr
          cases total with
          | none => simp [black_population_ratio, hc, hg] at h
          | some tv =>
            cases black with
            | none => simp [black_population_ratio, hc, hg] at h
            | some bv =>
              by_cases ht : tv = 0
              · simp [black_population_ratio, hc, hg, ht] at h
              · simp [black_population_ratio, hc, hg, ht] at h
                refine ⟨c, tv, bv, rfl, ?_, hg, ht, h.symm⟩
                intro hce
                rw [hce] at hc
                exact hc rfl
  · rintro ⟨c, tv, bv, rfl, hc, hg, ht, rfl⟩
    have hce : c.isEmpty = false := by
      cases hh : c.isEmpty
      · rfl
      · exact absurd ((String.isEmpty_iff c).mp hh) hc
    simp [black_population_ratio, hce, hg, ht]

/-- Witness for Claim C8 at a concrete table and locality. -/
theorem black_population_ratio_spec_witness :
    black_population_ratio [("Oakland", (some 100, some 25))]
      (some "Oakland") = some (1/4) :=
  (black_population_ratio_spec [("Oakland", (some 100, some 25))]
    (some "Oakland") (1/4)).mpr
    ⟨"Oakland", 100, 25, rfl, by decide, rfl, by decide, by norm_num⟩

/-- Counterexample for Claim C8 as stated: the empty string CAN be a key
of the demographic table with a present, non-zero total and a present
subgroup count, yet a record whose locality is that empty string gets a
null ratio, because Python truthiness rejects the empty string before
the table lookup. -/
theorem black_population_ratio_empty_locality_counterexample :
    dictGet [("", ((some 100 : Option Int), (some 10 : Option Int)))] ""
      = some (some 100, some 10) ∧
    black_population_ratio [("", (some 100, some 10))] (some "") = none :=
  ⟨rfl, rfl⟩
